import Mathlib

/-!
Shallow embedding of the `masstransit` MPMC channel (src/src/lib.rs).

The channel keeps three pieces of shared state (struct `ChannelInner`):
a registry of waiting threads (`queue: Mutex<VecDeque<WaitingThread>>`),
the message queue (`data: Mutex<VecDeque<T>>`), and the live-sender
counter (`num_senders: AtomicU32`).  Every public operation acquires the
relevant locks, so each operation (and, for the receive loops, each loop
iteration ending in a return or a `park`) is modelled as one atomic
transition on that state.  `VecDeque` is modelled as a Lean list whose
head is the deque front; `usize` values are `Nat` with `usize::MAX`
written `USIZE_MAX`, and the `taken += wt.count` accumulation in
`send_many` is reduced mod `2^64` exactly where the machine addition
wraps.

The receive operations are loops `loop { drain; return / park }`; one
iteration either returns a value (`Outcome.ret`), or registers the
calling thread in the waiter registry and parks (`Outcome.parked`).
A separate interleaved small-step model of `recv` racing `send`
(`MT.rStep` / `MT.sStep` below) is used for the wakeup-liveness claim.
-/

namespace MT

/-- `usize::MAX` on a 64-bit target. -/
def USIZE_MAX : Nat := 2 ^ 64 - 1

/-- `struct WaitingThread { thread: Thread, count: usize }`: one record of
the waiter registry; `thread` is the parked thread's identity (a handle to
unpark it), `count` the number of items it is waiting for. -/
structure WaitingThread where
  thread : Nat
  count : Nat
  deriving DecidableEq, Repr

/-- `struct ChannelInner<T>`: `queue` is the registry of waiting threads,
`data` the message queue, `num_senders` the live-sender count (head of a
list = front of the `VecDeque`). -/
structure ChannelInner (T : Type) where
  queue : List WaitingThread
  data : List T
  num_senders : Nat
  deriving DecidableEq, Repr

/-- `ChannelInner::new()` as produced by `channel()`: empty registry, empty
data queue, `num_senders = 1`. -/
def new_channel (T : Type) : ChannelInner T :=
  { queue := [], data := [], num_senders := 1 }

/-- Result of one iteration of a receive loop: either the function returns
(`ret`, with the Rust `Option` result and the post-state), or the calling
thread has registered a waiter record and parked (`parked`, with the state
as it is while the thread sleeps). -/
inductive Outcome (A : Type) (T : Type) where
  | ret (val : Option A) (s : ChannelInner T)
  | parked (s : ChannelInner T)
  deriving DecidableEq, Repr

/-- `Sender::send`: push the item at the back of `data`, then pop the front
record of the waiter registry (if any) and unpark that one thread.
Returns the new state and the record that was unparked, if any. -/
def send {T : Type} (s : ChannelInner T) (item : T) :
    ChannelInner T × Option WaitingThread :=
  let s1 : ChannelInner T := { s with data := s.data ++ [item] }
  match s1.queue with
  | [] => (s1, none)
  | wt :: rest => ({ s1 with queue := rest }, some wt)

/-- One `taken` update of `send_many`'s wake loop:
`if wt.count == usize::MAX { taken = usize::MAX } else { taken += wt.count }`
(the addition is a wrapping `usize` addition). -/
def bump (taken c : Nat) : Nat :=
  if c = USIZE_MAX then USIZE_MAX else (taken + c) % 2 ^ 64

/-- The `while let Some(wt) = lock.pop_front()` loop of `send_many`: pop and
unpark records from the front, accumulating `taken` via `bump`, and stop
right after `taken >= num_items` first holds.  Returns (unparked records in
order, remaining registry). -/
def wake_many (num_items : Nat) : Nat → List WaitingThread →
    List WaitingThread × List WaitingThread
  | _, [] => ([], [])
  | taken, wt :: rest =>
    let taken' := bump taken wt.count
    if num_items ≤ taken' then ([wt], rest)
    else
      let p := wake_many num_items taken' rest
      (wt :: p.1, p.2)

/-- `Sender::send_many`: push all items at the back of `data` in order, read
`num_items = lock.len()` (the data-queue length AFTER the pushes), then run
the wake loop with `taken` starting at 0. -/
def send_many {T : Type} (s : ChannelInner T) (items : List T) :
    ChannelInner T × List WaitingThread :=
  let data' := s.data ++ items
  let num_items := data'.length
  let p := wake_many num_items 0 s.queue
  ({ s with data := data', queue := p.2 }, p.1)

/-- `impl Drop for Sender`: `fetch_sub(1)`; if the counter was 1 (so the
last sender is going away), iterate over the waiter registry and unpark
every recorded thread — WITHOUT removing the records (`lock.iter()`).
Returns the new state and the list of records whose threads were unparked.
(Faithful for `num_senders ≥ 1`, which holds whenever a live `Sender` — the
only caller of this destructor — exists.) -/
def sender_drop {T : Type} (s : ChannelInner T) :
    ChannelInner T × List WaitingThread :=
  if s.num_senders = 1 then
    ({ s with num_senders := 0 }, s.queue)
  else
    ({ s with num_senders := s.num_senders - 1 }, [])

/-- `Sender::clone`: `fetch_add(1)` on the sender count. -/
def sender_clone {T : Type} (s : ChannelInner T) : ChannelInner T :=
  { s with num_senders := (s.num_senders + 1) % 2 ^ 32 }

/-- One iteration of `Receiver::recv` (caller's thread id `tid`): pop the
front of `data`; if an item is there return it; else if `num_senders == 0`
return `None`; else push a 1-item waiter record and park. -/
def recv {T : Type} (tid : Nat) (s : ChannelInner T) : Outcome T T :=
  match s.data with
  | item :: rest => .ret (some item) { s with data := rest }
  | [] =>
    if s.num_senders = 0 then .ret none s
    else .parked { s with queue := s.queue ++ [⟨tid, 1⟩] }

/-- The inner drain loop of `recv_exact`: pop into the accumulator `acc`
until it holds exactly `num` items (return it with the rest of the queue),
or the queue runs dry — then return the accumulator if non-empty, else
fall through (`none`). -/
def drain_exact {T : Type} (num : Nat) : List T → List T →
    Option (List T) × List T
  | acc, item :: rest =>
    let acc' := acc ++ [item]
    if acc'.length = num then (some acc', rest)
    else drain_exact num acc' rest
  | acc, [] =>
    if acc.isEmpty then (none, []) else (some acc, [])

/-- One iteration of `Receiver::recv_exact(num)`: run the drain loop; if it
produced a batch return it; else if `num_senders == 0` return `None`; else
push a `num`-item waiter record and park. -/
def recv_exact {T : Type} (tid num : Nat) (s : ChannelInner T) :
    Outcome (List T) T :=
  match drain_exact num [] s.data with
  | (some batch, rest) => .ret (some batch) { s with data := rest }
  | (none, _) =>
    if s.num_senders = 0 then .ret none s
    else .parked { s with queue := s.queue ++ [⟨tid, num⟩] }

/-- One iteration of `Receiver::recv_all`: `mem::take` the whole data queue;
if non-empty return it as one batch; else if `num_senders == 0` return
`None`; else push an unbounded (`usize::MAX`) waiter record and park. -/
def recv_all {T : Type} (tid : Nat) (s : ChannelInner T) :
    Outcome (List T) T :=
  if s.data.isEmpty then
    if s.num_senders = 0 then .ret none s
    else .parked { s with queue := s.queue ++ [⟨tid, USIZE_MAX⟩] }
  else .ret (some s.data) { s with data := [] }

/-- One single-producer thread sending its values in order through
`Sender::send`. -/
def send_all {T : Type} (s : ChannelInner T) : List T → ChannelInner T
  | [] => s
  | v :: vs => send_all (send s v).1 vs

/-- One single-consumer thread making `k` successive `Receiver::recv` calls,
collecting the returned items in order (stopping early if a call does not
return an item). -/
def recv_seq {T : Type} (tid : Nat) (s : ChannelInner T) :
    Nat → List T × ChannelInner T
  | 0 => ([], s)
  | k + 1 =>
    match recv tid s with
    | .ret (some v) s' =>
      let p := recv_seq tid s' k
      (v :: p.1, p.2)
    | _ => ([], s)

/-- Running total of the `taken` accumulator of `send_many`'s wake loop over
a list of resumed records, starting from `t`. -/
def taken_sum : Nat → List WaitingThread → Nat
  | t, [] => t
  | t, wt :: ws => taken_sum (bump t wt.count) ws

/-- The wake pass as the spec/claim words it, for comparison with the
code's `wake_many`: requirements are summed until they cover the length of
the batch pushed by THIS call, and if a resumed waiter declares an
unbounded requirement, all waiters are resumed. -/
def wake_many_claimed (batch_len : Nat) : Nat → List WaitingThread →
    List WaitingThread × List WaitingThread
  | _, [] => ([], [])
  | taken, wt :: rest =>
    if wt.count = USIZE_MAX then (wt :: rest, [])
    else
      let taken' := taken + wt.count
      if batch_len ≤ taken' then ([wt], rest)
      else
        let p := wake_many_claimed batch_len taken' rest
        (wt :: p.1, p.2)

/-- `send_many` as the claim describes it: the wake pass is sized to the
length of the pushed batch (`items.length`), not to the queue length. -/
def send_many_claimed {T : Type} (s : ChannelInner T) (items : List T) :
    ChannelInner T × List WaitingThread :=
  let p := wake_many_claimed items.length 0 s.queue
  ({ s with data := s.data ++ items, queue := p.2 }, p.1)

/-!
Interleaved two-thread model for the wakeup-liveness claim: one receiver
thread (id 0) executing `Receiver::recv`, one sender thread executing
`Sender::send(101)` once (the sender handle stays alive afterwards, so the
channel stays open).  Each program point that holds a lock (or performs one
atomic access) is one atomic step; the scheduler chooses which thread steps.
`std::thread::park`/`unpark` are modelled by the standard token semantics:
`unpark` makes the target thread's token available; `park` consumes an
available token and returns, and blocks (no enabled step) when no token is
available.  Spurious returns from `park` are not modelled: no step of the
model corresponds to one, matching the executions in which none occurs.
-/

/-- Control points of the receiver thread inside `recv`'s loop:
`r0` = about to lock `data` and `pop_front`; `r1` = pop returned `None`,
about to load `num_senders`; `r2` = count was non-zero, about to lock the
registry and push its record; `r3` = record pushed, about to `park`. -/
inductive RPC where
  | r0 | r1 | r2 | r3
  | doneItem (v : Nat)
  | doneClosed
  deriving DecidableEq, Repr

/-- Control points of the sender thread inside `send`: `s0` = about to lock
`data` and push; `s1` = pushed, about to lock the registry and wake;
`sDone` = `send` returned. -/
inductive SPC where
  | s0 | s1 | sDone
  deriving DecidableEq, Repr

/-- Global state of the interleaved model: the shared `ChannelInner` fields
plus each thread's control point and the receiver's park token. -/
structure CState where
  chan : ChannelInner Nat
  rpc : RPC
  spc : SPC
  rtoken : Bool
  deriving DecidableEq, Repr

/-- One atomic step of the receiver thread, `none` when it is blocked (at
`r3` with no token available) or finished. -/
def rStep (c : CState) : Option CState :=
  match c.rpc with
  | .r0 =>
    match c.chan.data with
    | v :: rest => some { c with chan := { c.chan with data := rest }, rpc := .doneItem v }
    | [] => some { c with rpc := .r1 }
  | .r1 =>
    if c.chan.num_senders = 0 then some { c with rpc := .doneClosed }
    else some { c with rpc := .r2 }
  | .r2 =>
    some { c with chan := { c.chan with queue := c.chan.queue ++ [⟨0, 1⟩] }, rpc := .r3 }
  | .r3 =>
    if c.rtoken then some { c with rtoken := false, rpc := .r0 } else none
  | .doneItem _ => none
  | .doneClosed => none

/-- One atomic step of the sender thread running `send(101)`, `none` when it
is finished.  Unparking the popped record's thread sets that thread's token;
thread 0 is the receiver. -/
def sStep (c : CState) : Option CState :=
  match c.spc with
  | .s0 => some { c with chan := { c.chan with data := c.chan.data ++ [101] }, spc := .s1 }
  | .s1 =>
    match c.chan.queue with
    | wt :: rest =>
      some { c with
             chan := { c.chan with queue := rest },
             rtoken := if wt.thread = 0 then true else c.rtoken,
             spc := .sDone }
    | [] => some { c with spc := .sDone }
  | .sDone => none

/-- Initial state: receiver entering `recv` on the fresh channel, sender
about to execute `send(101)`. -/
def mtInit : CState :=
  { chan := new_channel Nat, rpc := .r0, spc := .s0, rtoken := false }

/-! Helper lemmas about the drain loop of `recv_exact`. -/

/-- If the data queue runs dry before the accumulator reaches `num`, the
drain loop returns everything it saw (accumulator plus queue), leaving the
queue empty. -/
theorem drain_exact_short {T : Type} (num : Nat) (acc data : List T)
    (hne : acc ++ data ≠ []) (hlen : acc.length + data.length < num) :
    drain_exact num acc data = (some (acc ++ data), []) := by
  induction data generalizing acc with
  | nil =>
    have hne' : acc.isEmpty = false := by
      simpa using hne
    simp [drain_exact, hne']
  | cons a rest ih =>
    have h1 : (acc ++ [a]).length ≠ num := by
      simp only [List.length_append, List.length_cons, List.length_nil] at hlen ⊢
      omega
    have h2 : (acc ++ [a]).length + rest.length < num := by
      simp only [List.length_append, List.length_cons, List.length_nil] at hlen ⊢
      omega
    have h3 : (acc ++ [a]) ++ rest ≠ [] := by simp
    simp only [drain_exact, h1, if_false]
    rw [ih (acc ++ [a]) h3 h2]
    simp

/-- A successful drain starting below `num` yields a non-empty batch of at
most `num` items. -/
theorem drain_exact_some {T : Type} (num : Nat) (acc data batch rest : List T)
    (hacc : acc.length < num)
    (h : drain_exact num acc data = (some batch, rest)) :
    batch ≠ [] ∧ batch.length ≤ num := by
  induction data generalizing acc with
  | nil =>
    by_cases he : acc.isEmpty
    · simp [drain_exact, he] at h
    · simp only [drain_exact, he, if_false, Prod.mk.injEq, Option.some.injEq] at h
      obtain ⟨rfl, rfl⟩ := h
      exact ⟨by simpa using he, Nat.le_of_lt hacc⟩
  | cons a rest' ih =>
    by_cases hl : (acc ++ [a]).length = num
    · simp only [drain_exact, hl, if_true, Prod.mk.injEq, Option.some.injEq] at h
      obtain ⟨rfl, rfl⟩ := h
      exact ⟨by simp, Nat.le_of_eq hl⟩
    · simp only [drain_exact, hl, if_false] at h
      have hacc' : (acc ++ [a]).length < num := by
        simp only [List.length_append, List.length_cons, List.length_nil] at hl ⊢
        omega
      exact ih (acc ++ [a]) hacc' h

/-- The drain loop reports `none` only when it saw nothing at all. -/
theorem drain_exact_none {T : Type} (num : Nat) (acc data rest : List T)
    (h : drain_exact num acc data = (none, rest)) : data = [] ∧ acc = [] := by
  induction data generalizing acc with
  | nil =>
    by_cases he : acc.isEmpty
    · exact ⟨rfl, by simpa using he⟩
    · simp [drain_exact, he] at h
  | cons a rest' ih =>
    by_cases hl : (acc ++ [a]).length = num
    · simp [drain_exact, hl] at h
    · simp only [drain_exact, hl, if_false] at h
      have := (ih (acc ++ [a]) h).2
      simp at this

/-! Helper lemmas about the wake loop of `send_many`. -/

/-- The wake loop splits the registry: resumed records followed by the
remaining ones reassemble the original registry (each resumed record was
removed from the front before being resumed). -/
theorem wake_many_partition (n : Nat) (t : Nat) (ws : List WaitingThread) :
    (wake_many n t ws).1 ++ (wake_many n t ws).2 = ws := by
  induction ws generalizing t with
  | nil => simp [wake_many]
  | cons wt rest ih =>
    by_cases hc : n ≤ bump t wt.count
    · simp [wake_many, hc]
    · have hrec := ih (bump t wt.count)
      simp [wake_many, hc, hrec]

/-- If the wake loop left records in the registry, the resumed records'
accumulated `taken` total reached `n`. -/
theorem wake_many_covers (n : Nat) (t : Nat) (ws : List WaitingThread)
    (h : (wake_many n t ws).2 ≠ []) : n ≤ taken_sum t (wake_many n t ws).1 := by
  induction ws generalizing t with
  | nil => simp [wake_many] at h
  | cons wt rest ih =>
    by_cases hc : n ≤ bump t wt.count
    · simp [wake_many, hc, taken_sum]
    · simp only [wake_many, hc, if_false] at h ⊢
      simpa [taken_sum] using ih (bump t wt.count) h

/-- Minimality of the wake loop: every strict prefix of the resumed records
has an accumulated total still below `n` (the loop stopped as soon as the
total covered `n`). -/
theorem wake_many_minimal (n : Nat) (t : Nat) (ws : List WaitingThread)
    (ht : t < n) (p q : List WaitingThread)
    (hpq : (wake_many n t ws).1 = p ++ q) (hq : q ≠ []) :
    taken_sum t p < n := by
  induction ws generalizing t p with
  | nil =>
    simp only [wake_many] at hpq
    rcases p with _ | ⟨x, ps⟩
    · simpa [taken_sum] using ht
    · simp at hpq
  | cons wt rest ih =>
    by_cases hc : n ≤ bump t wt.count
    · simp only [wake_many, hc, if_true] at hpq
      rcases p with _ | ⟨x, ps⟩
      · simpa [taken_sum] using ht
      · rcases q with _ | ⟨y, qs⟩
        · exact absurd rfl hq
        · exfalso
          have hlen := congrArg List.length hpq
          simp only [List.length_cons, List.length_append, List.length_nil] at hlen
          omega
    · simp only [wake_many, hc, if_false] at hpq
      have ht' : bump t wt.count < n := Nat.lt_of_not_le hc
      rcases p with _ | ⟨x, ps⟩
      · simpa [taken_sum] using ht
      · simp only [List.cons_append, List.cons.injEq] at hpq
        obtain ⟨hx, hps⟩ := hpq
        subst hx
        simpa [taken_sum] using ih (bump t wt.count) ht' ps hps

/-! Helper lemmas about `send` sequences and `recv` sequences. -/

/-- `send` appends its item at the back of the data queue (whatever the
wake pass does to the registry). -/
theorem send_data {T : Type} (s : ChannelInner T) (item : T) :
    (send s item).1.data = s.data ++ [item] := by
  unfold send
  cases s.queue <;> simp

/-- A producer's consecutive `send`s append its values in order. -/
theorem send_all_data {T : Type} (s : ChannelInner T) (vs : List T) :
    (send_all s vs).data = s.data ++ vs := by
  induction vs generalizing s with
  | nil => simp [send_all]
  | cons v vs ih =>
    rw [send_all, ih, send_data]
    simp

/-- While the data queue holds at least `k` items, `k` successive `recv`
calls return the first `k` of them, in queue order. -/
theorem recv_seq_drain {T : Type} (tid : Nat) (k : Nat) (s : ChannelInner T)
    (hk : k ≤ s.data.length) :
    recv_seq tid s k = (s.data.take k, { s with data := s.data.drop k }) := by
  induction k generalizing s with
  | zero => simp [recv_seq]
  | succ k ih =>
    cases hd : s.data with
    | nil => rw [hd] at hk; simp at hk
    | cons v rest =>
      have hrecv : recv tid s = .ret (some v) { s with data := rest } := by
        simp [recv, hd]
      have hk' : k ≤ rest.length := by
        rw [hd] at hk
        simpa using hk
      have hrec := ih { s with data := rest } hk'
      simp [recv_seq, hrecv, hrec, hd]

/-! The claim theorems. -/

/-- C1: after `send_many` of the 8 items `0..7` and dropping the only
`Sender`, a first `recv_exact(5)` returns the 5-item batch `[0,1,2,3,4]`, a
second `recv_exact(5)` returns the remaining 3-item batch `[5,6,7]`, and a
third call returns `None`; in general, whenever the data queue drains
(non-empty but shorter than `num`) before `num` items are collected, the
call returns the partial non-empty batch at once — the state returned by
`Outcome.ret` shows no waiter was registered and the call did not park. -/
theorem recv_exact_partial_batch_law :
    (recv_exact 0 5 ((sender_drop ((send_many (new_channel Nat)
          [0, 1, 2, 3, 4, 5, 6, 7]).1)).1)
        = .ret (some [0, 1, 2, 3, 4]) ⟨[], [5, 6, 7], 0⟩
      ∧ recv_exact 0 5 (⟨[], [5, 6, 7], 0⟩ : ChannelInner Nat)
        = .ret (some [5, 6, 7]) ⟨[], [], 0⟩
      ∧ recv_exact 0 5 (⟨[], [], 0⟩ : ChannelInner Nat) = .ret none ⟨[], [], 0⟩)
    ∧ ∀ (T : Type) (tid num : Nat) (s : ChannelInner T),
        s.data ≠ [] → s.data.length < num →
        recv_exact tid num s = .ret (some s.data) { s with data := [] } := by
  refine ⟨⟨by decide, by decide, by decide⟩, ?_⟩
  intro T tid num s hne hlen
  have hdrain : drain_exact num [] s.data = (some s.data, []) := by
    have := drain_exact_short num [] s.data (by simpa using hne) (by simpa using hlen)
    simpa using this
  simp [recv_exact, hdrain]

/-- Witness for C1: the partial-batch clause applied to the concrete state
left after the first `recv_exact(5)` of the 8-item scenario. -/
theorem recv_exact_partial_batch_law_witness :
    recv_exact 0 5 (⟨[], [5, 6, 7], 0⟩ : ChannelInner Nat)
      = .ret (some [5, 6, 7]) ⟨[], [], 0⟩ :=
  recv_exact_partial_batch_law.2 Nat 0 5 ⟨[], [5, 6, 7], 0⟩
    (by decide) (by decide)

/-- C3: after `send(101)` on a fresh channel and dropping the only `Sender`,
`recv` first returns `101` and then returns `None`; in general, once
`num_senders = 0` and the data queue is empty, `recv`, `recv_exact` and
`recv_all` all return `None` and leave the state unchanged, so the closed
observation repeats forever (and no `Sender` handle survives that could
push data or raise the count). -/
theorem closed_drains_to_none :
    (recv 0 ((sender_drop ((send (new_channel Nat) 101).1)).1)
        = .ret (some 101) ⟨[], [], 0⟩
      ∧ recv 0 (⟨[], [], 0⟩ : ChannelInner Nat) = .ret none ⟨[], [], 0⟩)
    ∧ ∀ (T : Type) (tid : Nat) (s : ChannelInner T),
        s.num_senders = 0 → s.data = [] →
        recv tid s = .ret none s
          ∧ (∀ num, recv_exact tid num s = .ret none s)
          ∧ recv_all tid s = .ret none s := by
  refine ⟨⟨by decide, by decide⟩, ?_⟩
  intro T tid s hsend hdata
  refine ⟨?_, ?_, ?_⟩
  · simp [recv, hsend, hdata]
  · intro num
    simp [recv_exact, drain_exact, hsend, hdata]
  · simp [recv_all, hsend, hdata]

/-- Witness for C3: the closed-state clause applied to the concrete
closed-and-empty channel. -/
theorem closed_drains_to_none_witness :
    recv 0 (⟨[], [], 0⟩ : ChannelInner Nat) = .ret none ⟨[], [], 0⟩ :=
  (closed_drains_to_none.2 Nat 0 ⟨[], [], 0⟩ rfl rfl).1

/-- C4: after `send_many` of the 8 items `0..7` and dropping the only
`Sender`, one `recv_all` detaches and returns all 8 queued items as one
batch and a second `recv_all` returns `None`; and `recv_all` never returns
an empty batch. -/
theorem recv_all_batch_law :
    (recv_all 0 ((sender_drop ((send_many (new_channel Nat)
          [0, 1, 2, 3, 4, 5, 6, 7]).1)).1)
        = .ret (some [0, 1, 2, 3, 4, 5, 6, 7]) ⟨[], [], 0⟩
      ∧ recv_all 0 (⟨[], [], 0⟩ : ChannelInner Nat) = .ret none ⟨[], [], 0⟩)
    ∧ ∀ (T : Type) (tid : Nat) (s : ChannelInner T) (batch : List T)
        (s' : ChannelInner T),
        recv_all tid s = .ret (some batch) s' → batch ≠ [] := by
  refine ⟨⟨by decide, by decide⟩, ?_⟩
  intro T tid s batch s' h
  by_cases he : s.data.isEmpty
  · by_cases hs : s.num_senders = 0 <;> simp [recv_all, he, hs] at h
  · simp only [recv_all, he, Bool.false_eq_true, if_false, Outcome.ret.injEq,
      Option.some.injEq] at h
    obtain ⟨rfl, rfl⟩ := h
    simpa using he

/-- Witness for C4: the non-empty-batch clause applied to `recv_all` on a
one-item queue. -/
theorem recv_all_batch_law_witness : ([42] : List Nat) ≠ [] :=
  recv_all_batch_law.2 Nat 0 ⟨[], [42], 1⟩ [42] ⟨[], [], 1⟩ (by decide)

/-- C5 (FIFO per producer): a single producer sending `vs` in order via
consecutive `send` calls onto a channel whose data queue is empty leaves
the queue equal to `vs`, and a single receiver's successive `recv` calls
then return exactly `vs` in the same order. -/
theorem fifo_per_producer :
    ∀ (T : Type) (tid : Nat) (s : ChannelInner T) (vs : List T),
      s.data = [] →
      (recv_seq tid (send_all s vs) vs.length).1 = vs := by
  intro T tid s vs hdata
  have hsend : (send_all s vs).data = vs := by
    rw [send_all_data, hdata]
    simp
  have hlen : vs.length ≤ (send_all s vs).data.length := by rw [hsend]
  rw [recv_seq_drain tid vs.length (send_all s vs) hlen, hsend]
  simp

/-- Witness for C5: sending `[3, 1, 2]` on a fresh channel and receiving
three times returns `[3, 1, 2]`. -/
theorem fifo_per_producer_witness :
    (recv_seq 0 (send_all (new_channel Nat) [3, 1, 2]) 3).1 = [3, 1, 2] :=
  fifo_per_producer Nat 0 (new_channel Nat) [3, 1, 2] rfl

/-- C6: for every positive `num`, a `recv_exact` call that returns a batch
returns between 1 and `num` items; and it returns `None` only when the data
queue held nothing to collect, the sender count was 0, and then the state
is left unchanged. -/
theorem recv_exact_length_bounds :
    (∀ (T : Type) (tid num : Nat) (s : ChannelInner T) (batch : List T)
        (s' : ChannelInner T), 0 < num →
        recv_exact tid num s = .ret (some batch) s' →
        1 ≤ batch.length ∧ batch.length ≤ num)
    ∧ ∀ (T : Type) (tid num : Nat) (s : ChannelInner T) (s' : ChannelInner T),
        recv_exact tid num s = .ret none s' →
        s.data = [] ∧ s.num_senders = 0 ∧ s' = s := by
  constructor
  · intro T tid num s batch s' hnum h
    cases hdr : drain_exact num [] s.data with
    | mk val rest =>
      cases val with
      | some b =>
        rw [recv_exact, hdr] at h
        simp only [Outcome.ret.injEq, Option.some.injEq] at h
        obtain ⟨rfl, rfl⟩ := h
        have := drain_exact_some num [] s.data b rest (by simpa using hnum) hdr
        exact ⟨Nat.one_le_iff_ne_zero.mpr (by simpa using this.1), this.2⟩
      | none =>
        rw [recv_exact, hdr] at h
        by_cases hs : s.num_senders = 0 <;> simp [hs] at h
  · intro T tid num s s' h
    cases hdr : drain_exact num [] s.data with
    | mk val rest =>
      cases val with
      | some b =>
        rw [recv_exact, hdr] at h
        simp at h
      | none =>
        have hdata := (drain_exact_none num [] s.data rest hdr).1
        rw [recv_exact, hdr] at h
        by_cases hs : s.num_senders = 0
        · simp only [hs, if_true, Outcome.ret.injEq] at h
          exact ⟨hdata, hs, h.2.symm⟩
        · simp [hs] at h

/-- Witness for C6: `recv_exact(2)` on a queue holding only `[9]` returns
the 1-item batch `[9]`, whose length lies in `[1, 2]`. -/
theorem recv_exact_length_bounds_witness :
    1 ≤ ([9] : List Nat).length ∧ ([9] : List Nat).length ≤ 2 :=
  recv_exact_length_bounds.1 Nat 0 2 ⟨[], [9], 1⟩ [9] ⟨[], [], 1⟩
    (by decide) (by decide)

/-- C7 (evidence of the divergence): `recv_exact(0)` is NOT rejected before
the wait protocol.  On an empty, open channel it registers the calling
thread (id 7) as a waiter demanding 0 items and parks; and on a non-empty
queue it drains and returns the ENTIRE queue contents (here 2 items for a
request of 0). -/
theorem recv_exact_zero_enters_wait_protocol :
    recv_exact 7 0 (new_channel Nat)
      = .parked ⟨[⟨7, 0⟩], [], 1⟩
    ∧ recv_exact 7 0 (⟨[], [4, 5], 1⟩ : ChannelInner Nat)
      = .ret (some [4, 5]) ⟨[], [], 1⟩ := by
  constructor <;> decide

/-- C8 counterexample: dropping the last `Sender` while thread 7 has a
1-item record registered resumes that record's thread but leaves the
record in the waiter registry — the resume path of the close-broadcast
does not remove what it resumes. -/
theorem close_broadcast_keeps_records :
    (sender_drop (⟨[⟨7, 1⟩], [], 1⟩ : ChannelInner Nat)).2 = [⟨7, 1⟩]
    ∧ (⟨7, 1⟩ : WaitingThread) ∈
        (sender_drop (⟨[⟨7, 1⟩], [], 1⟩ : ChannelInner Nat)).1.queue := by
  constructor <;> decide

/-- C8 as amended: the producer wake paths (`send`, `send_many`) remove
each resumed record from the registry before resuming it (`send` pops
exactly the front record; `send_many`'s resumed records plus the remaining
registry reassemble the original registry), while the close-broadcast of
the last `Sender`'s drop resumes every registered record but leaves the
registry itself unchanged. -/
theorem wake_paths_registry_discipline :
    ∀ (T : Type) (s : ChannelInner T) (item : T) (items : List T),
      ((send s item).2 = s.queue.head?
          ∧ (send s item).1.queue = s.queue.tail)
      ∧ (send_many s items).2 ++ (send_many s items).1.queue = s.queue
      ∧ ((sender_drop s).1.queue = s.queue
          ∧ (sender_drop s).2 = (if s.num_senders = 1 then s.queue else [])
          ∧ (sender_drop s).1.num_senders = s.num_senders - 1) := by
  intro T s item items
  refine ⟨⟨?_, ?_⟩, ?_, ?_, ?_, ?_⟩
  · unfold send
    cases s.queue <;> simp
  · unfold send
    cases s.queue <;> simp
  · exact wake_many_partition (s.data ++ items).length 0 s.queue
  · unfold sender_drop
    by_cases hs : s.num_senders = 1 <;> simp [hs]
  · unfold sender_drop
    by_cases hs : s.num_senders = 1 <;> simp [hs]
  · unfold sender_drop
    by_cases hs : s.num_senders = 1 <;> simp [hs]

/-- C10: a single `send` wakes at most one waiter — it pops exactly the
front record of the registry (if any), regardless of that record's declared
count, leaving the rest of the registry untouched, and appends its item at
the back of the data queue. -/
theorem send_wakes_at_most_front_waiter :
    ∀ (T : Type) (s : ChannelInner T) (item : T),
      (send s item).1.data = s.data ++ [item]
      ∧ (send s item).2 = s.queue.head?
      ∧ (send s item).1.queue = s.queue.tail := by
  intro T s item
  unfold send
  cases s.queue <;> simp

/-- C2 counterexample: the code's wake pass differs from the claimed one at
concrete inputs.  (i) With one item `5` already queued and two 1-item
waiters registered, `send_many([7])` pushes a batch of length 1 but resumes
BOTH waiters (its `num_items` is the queue length 2 after the push), while
the claimed batch-sized pass resumes only the first.  (ii) With an
unbounded (`usize::MAX`) waiter in front of a 1-item waiter, the code stops
right after resuming the unbounded waiter, while the claim says resuming an
unbounded waiter resumes all. -/
theorem send_many_wake_differs_from_claimed :
    ((send_many (⟨[⟨1, 1⟩, ⟨2, 1⟩], [5], 1⟩ : ChannelInner Nat) [7]).2
        = [⟨1, 1⟩, ⟨2, 1⟩]
      ∧ (send_many_claimed (⟨[⟨1, 1⟩, ⟨2, 1⟩], [5], 1⟩ : ChannelInner Nat) [7]).2
        = [⟨1, 1⟩])
    ∧ ((send_many (⟨[⟨1, USIZE_MAX⟩, ⟨2, 1⟩], [], 1⟩ : ChannelInner Nat) [7]).2
        = [⟨1, USIZE_MAX⟩]
      ∧ (send_many_claimed
            (⟨[⟨1, USIZE_MAX⟩, ⟨2, 1⟩], [], 1⟩ : ChannelInner Nat) [7]).2
        = [⟨1, USIZE_MAX⟩, ⟨2, 1⟩]) := by
  refine ⟨⟨by decide, by decide⟩, by decide, by decide⟩

/-- C2 as amended: `send_many` pushes all items in caller order at the back
of the data queue; it then resumes the shortest prefix of the waiter
registry whose declared requirements accumulate (an unbounded `usize::MAX`
requirement immediately covering everything) to at least the TOTAL length
of the data queue after the push — not merely the batch length — resuming
every waiter if that total is never covered, and removes each resumed
record from the registry before resuming it. -/
theorem send_many_wake_characterization :
    ∀ (T : Type) (s : ChannelInner T) (items : List T),
      (send_many s items).1.data = s.data ++ items
      ∧ (send_many s items).2 ++ (send_many s items).1.queue = s.queue
      ∧ ((send_many s items).1.queue ≠ [] →
          (s.data ++ items).length ≤ taken_sum 0 (send_many s items).2)
      ∧ ∀ p q, (send_many s items).2 = p ++ q → q ≠ [] →
          0 < (s.data ++ items).length →
          taken_sum 0 p < (s.data ++ items).length := by
  intro T s items
  refine ⟨rfl, ?_, ?_, ?_⟩
  · exact wake_many_partition (s.data ++ items).length 0 s.queue
  · intro h
    exact wake_many_covers (s.data ++ items).length 0 s.queue h
  · intro p q hpq hq hpos
    exact wake_many_minimal (s.data ++ items).length 0 s.queue hpos p q hpq hq

/-- Witness for C2's amended statement: on a registry `[⟨1,2⟩, ⟨2,1⟩]` and
batch `[7, 8]`, the resumed prefix's total covers the post-push queue
length 2 while its strict prefix's total does not. -/
theorem send_many_wake_characterization_witness :
    (([] : List Nat) ++ [7, 8]).length ≤
        taken_sum 0 (send_many (⟨[⟨1, 2⟩, ⟨2, 1⟩], [], 1⟩ : ChannelInner Nat)
          [7, 8]).2
    ∧ taken_sum 0 [] < (([] : List Nat) ++ [7, 8]).length :=
  ⟨(send_many_wake_characterization Nat ⟨[⟨1, 2⟩, ⟨2, 1⟩], [], 1⟩ [7, 8]).2.2.1
      (by decide),
   (send_many_wake_characterization Nat ⟨[⟨1, 2⟩, ⟨2, 1⟩], [], 1⟩ [7, 8]).2.2.2
      [] [⟨1, 2⟩] (by decide) (by decide) (by decide)⟩

/-- C9 (evidence of the missed-wakeup race): in the interleaved model, run
the schedule: receiver pops the empty queue (r0→r1); sender pushes `101`
(s0→s1); sender's wake pass finds the registry empty and does nothing
(s1→sDone, the `send` call returns); receiver then sees the channel open
(r1→r2), registers its record (r2→r3) and parks.  In the final state the
item `101` is visible in the data queue, the channel is open
(`num_senders = 1`), the receiver entered the wait path AFTER the item
became visible — and neither thread has an enabled step: the receiver is
parked with no token (`rStep = none`) and the sender has returned
(`sStep = none`), so the receiver blocks indefinitely despite the visible
item, contradicting the no-missed-wakeup guarantee. -/
theorem recv_missed_wakeup_schedule :
    rStep mtInit = some ⟨⟨[], [], 1⟩, .r1, .s0, false⟩
    ∧ sStep ⟨⟨[], [], 1⟩, .r1, .s0, false⟩
        = some ⟨⟨[], [101], 1⟩, .r1, .s1, false⟩
    ∧ sStep ⟨⟨[], [101], 1⟩, .r1, .s1, false⟩
        = some ⟨⟨[], [101], 1⟩, .r1, .sDone, false⟩
    ∧ rStep ⟨⟨[], [101], 1⟩, .r1, .sDone, false⟩
        = some ⟨⟨[], [101], 1⟩, .r2, .sDone, false⟩
    ∧ rStep ⟨⟨[], [101], 1⟩, .r2, .sDone, false⟩
        = some ⟨⟨[⟨0, 1⟩], [101], 1⟩, .r3, .sDone, false⟩
    ∧ rStep ⟨⟨[⟨0, 1⟩], [101], 1⟩, .r3, .sDone, false⟩ = none
    ∧ sStep ⟨⟨[⟨0, 1⟩], [101], 1⟩, .r3, .sDone, false⟩ = none := by
  refine ⟨rfl, rfl, rfl, rfl, rfl, rfl, rfl⟩

end MT
